import Mathlib

/-!
Verification of the NoteTaker service (`app.py` + `database.py`): a shallow
embedding of the SQLite-backed note store and the HTTP handlers, with theorems
settling the specification claims.

Modelling conventions:
* The `notes` table is a list of rows plus the `AUTOINCREMENT` sequence value
  (`sqlite_sequence`), which SQLite keeps as the largest id ever assigned so
  that ids of deleted rows are never reused.
* `created_at`/`updated_at` are `datetime.utcnow().isoformat()` strings;
  ISO-8601 strings produced by a monotone clock compare lexicographically the
  same way the instants compare, so timestamps are modelled as `Nat` supplied
  by the caller (`now`).
* `ORDER BY created_at DESC` leaves the relative order of equal timestamps
  unspecified; the embedding refines it with a stable sort (insertion order
  preserved on ties).
* SQL `LIKE` is embedded with SQLite's default semantics: `%` matches any
  sequence, `_` any single character, and ASCII letters compare
  case-insensitively; `NULL LIKE p` is not a match.
* Python string truthiness (`if content:` etc.) is `strTruthy`: an absent or
  empty string is falsy.
* The filesystem (the `uploads` blob directory) is an association list from
  path to bytes; `uuid4` stems are supplied externally as a list of fresh
  names.
-/

namespace NoteTaker

/-- A row of the `notes` table (`database.py`, `init_db`). -/
structure Note where
  id : Nat
  note_type : String
  content : Option String
  file_name : Option String
  file_path : Option String
  mime_type : Option String
  tags : Option String
  created_at : Nat
  updated_at : Nat
deriving DecidableEq, Repr

/-- The SQLite database: the `notes` rows in insertion order, plus the
`AUTOINCREMENT` sequence value (largest id ever assigned). -/
structure Store where
  notes : List Note
  seq : Nat
deriving DecidableEq, Repr

/-- Python truthiness of an optional string: `None` and `""` are falsy. -/
def strTruthy : Option String → Bool
  | none => false
  | some s => !(s == "")

/-- Helper for Python `pat in s`: does `p` start `s`? -/
def isPrefOf : List Char → List Char → Bool
  | [], _ => true
  | _ :: _, [] => false
  | c :: p, d :: s => c == d && isPrefOf p s

/-- Python `pat in s`: literal (case-sensitive) substring containment. -/
def containsSub (pat : String) (s : String) : Bool := go pat.data s.data where
  go (p : List Char) : List Char → Bool
    | [] => p.isEmpty
    | d :: s' => isPrefOf p (d :: s') || go p s'

/-- `ORDER BY created_at DESC`: row `a` may come before `b` when
`b.created_at ≤ a.created_at`. -/
def CreatedGe (a b : Note) : Prop := b.created_at ≤ a.created_at

instance : DecidableRel CreatedGe := fun _ _ => Nat.decLe _ _

instance : IsTotal Note CreatedGe := ⟨fun a b => Nat.le_total b.created_at a.created_at⟩

instance : IsTrans Note CreatedGe := ⟨fun _ _ _ h h' => Nat.le_trans h' h⟩

/-- The rows sorted newest first (stable embedding of `ORDER BY created_at
DESC`). -/
def sortByCreatedDesc (l : List Note) : List Note := List.insertionSort CreatedGe l

namespace Database

/-- `init_db`: a fresh database has no rows and sequence value 0. -/
def initDb : Store := ⟨[], 0⟩

/-- `database.create_note`: INSERT a row; `AUTOINCREMENT` assigns
`seq + 1` and the cursor's `lastrowid` is returned. -/
def create_note (note_type : String) (content file_name file_path mime_type tags : Option String)
    (now : Nat) (s : Store) : Nat × Store :=
  let id := s.seq + 1
  (id, ⟨s.notes ++ [⟨id, note_type, content, file_name, file_path, mime_type, tags, now, now⟩],
        id⟩)

/-- `database.get_all_notes`: `SELECT * ORDER BY created_at DESC LIMIT ? OFFSET ?`. -/
def get_all_notes (limit offset : Nat) (s : Store) : List Note :=
  ((sortByCreatedDesc s.notes).drop offset).take limit

/-- `database.get_note_by_id`: `SELECT * WHERE id = ?`, first row or `None`. -/
def get_note_by_id (note_id : Nat) (s : Store) : Option Note :=
  s.notes.find? (fun n => n.id == note_id)

/-- `database.delete_note`: `DELETE WHERE id = ?`; returns `rowcount > 0`
and the updated table. -/
def delete_note (note_id : Nat) (s : Store) : Bool × Store :=
  (s.notes.any (fun n => n.id == note_id),
   ⟨s.notes.filter (fun n => !(n.id == note_id)), s.seq⟩)

/-- Fold ASCII upper-case to lower-case, as SQLite's default `LIKE`
collation does for `A`-`Z` only. -/
def asciiFold (c : Char) : Char :=
  if 'A' ≤ c ∧ c ≤ 'Z' then Char.ofNat (c.toNat + 32) else c

/-- All suffixes of a character list, longest first. -/
def tailsCh : List Char → List (List Char)
  | [] => [[]]
  | c :: t => (c :: t) :: tailsCh t

/-- SQLite `LIKE` pattern matching: `%` matches any sequence (so the rest of
the pattern must match some suffix of the string), `_` matches any single
character, and other characters match ASCII-case-insensitively. -/
def likeMatch : List Char → List Char → Bool
  | [], s => s.isEmpty
  | '%' :: p, s => (tailsCh s).any fun t => likeMatch p t
  | '_' :: _, [] => false
  | '_' :: p, _ :: s => likeMatch p s
  | _ :: _, [] => false
  | c :: p, d :: s => (asciiFold c == asciiFold d) && likeMatch p s

/-- `field LIKE ?`: a NULL field never matches. -/
def optLike (pat : String) : Option String → Bool
  | none => false
  | some s => likeMatch pat.data s.data

/-- The `WHERE` clause of `search_notes` with `search_pattern = "%" + query + "%"`:
`content LIKE ? OR tags LIKE ? OR file_name LIKE ?`. -/
def noteMatches (query : String) (n : Note) : Bool :=
  optLike ("%" ++ query ++ "%") n.content || optLike ("%" ++ query ++ "%") n.tags ||
    optLike ("%" ++ query ++ "%") n.file_name

/-- `database.search_notes`: WHERE-filter, then `ORDER BY created_at DESC`,
then `LIMIT ?` (no OFFSET in this query). -/
def search_notes (query : String) (limit : Nat) (s : Store) : List Note :=
  (sortByCreatedDesc (s.notes.filter (noteMatches query))).take limit

/-- `database.get_note_count`: `SELECT COUNT(*) FROM notes`. -/
def get_note_count (s : Store) : Nat := s.notes.length

end Database

/-! ### The application layer (`app.py`) -/

/-- The `uploads` blob directory (and anything else on disk): an association
list from path to file bytes. -/
abbrev Fs := List (String × List Nat)

/-- `path.exists()`. -/
def fsExists (fs : Fs) (p : String) : Bool := fs.any (fun e => e.1 == p)

/-- `path.unlink()`: remove the entry. -/
def fsRemove (fs : Fs) (p : String) : Fs := fs.filter (fun e => !(e.1 == p))

/-- `open(path, "wb").write(bytes)`: truncate-and-write. -/
def fsWrite (fs : Fs) (p : String) (b : List Nat) : Fs := fsRemove fs p ++ [(p, b)]

/-- One entry of the `files: List[UploadFile]` form field. `bytes` is what
`await file.read()` yields; `content_type` is the client-supplied MIME type. -/
structure UploadedFile where
  filename : Option String
  bytes : List Nat
  content_type : Option String
deriving DecidableEq, Repr

/-- The multipart form of `POST /api/notes`. -/
structure CreateRequest where
  content : Option String
  link : Option String
  tags : Option String
  files : List UploadedFile
deriving DecidableEq, Repr

/-- Combined server state: database plus blob directory. -/
structure AppState where
  db : Store
  fs : Fs
deriving DecidableEq, Repr

/-- An `HTTPException(status_code, detail)`. -/
structure HttpError where
  status : Nat
  detail : String
deriving DecidableEq, Repr

/-- One element of the `notes` array in the create response. -/
structure CreatedSummary where
  id : Nat
  note_type : String
  file_name : Option String
  message : String
deriving DecidableEq, Repr

/-- The JSON body returned by `POST /api/notes`. -/
structure CreateResponse where
  success : Bool
  notes : List CreatedSummary
  count : Nat
deriving DecidableEq, Repr

namespace App

/-- `50 * 1024 * 1024`: the upload size limit. -/
def maxFileSize : Nat := 50 * 1024 * 1024

/-- `Path(name).suffix`: the extension of the final path component, dot
included; empty when the last dot is absent or leads the component. -/
def pathSuffix (name : String) : String :=
  let base := (name.splitOn "/").getLastD ""
  match (base.data.reverse.findIdx? (fun c => c == '.')).map
      (fun j => base.data.length - 1 - j) with
  | some i => if 0 < i then ⟨base.data.drop i⟩ else ""
  | none => ""

/-- Python `a or b` for a string `a` with fallback string `b`. -/
def pyOrStr (a : Option String) (b : String) : String :=
  if strTruthy a then a.getD "" else b

/-- The `files and len(files) > 0 and files[0].filename and files[0].filename != ''`
guard of `create_note`. -/
def firstFileNamed : List UploadedFile → Bool
  | [] => false
  | f :: _ => strTruthy f.filename

/-- The `for file in files:` loop body of `app.create_note`: skip unnamed
files, reject oversized ones with 413 (keeping the effects of earlier files,
as the raised exception does not roll back committed work), otherwise write
the blob under a fresh `uuid4` name and insert the row. `guessType` stands
for `mimetypes.guess_type`; `stems` supplies the `uuid4()` values. -/
def processFiles (guessType : String → Option String) (content tags : Option String) (now : Nat) :
    List UploadedFile → List String → AppState → List CreatedSummary →
      AppState × Except HttpError (List CreatedSummary)
  | [], _, st, acc => (st, .ok acc)
  | f :: rest, stems, st, acc =>
    if !(strTruthy f.filename) then
      processFiles guessType content tags now rest stems st acc
    else if f.bytes.length > maxFileSize then
      (st, .error ⟨413, "File " ++ f.filename.getD "" ++ " is too large (max 50MB)"⟩)
    else
      let fname := f.filename.getD ""
      let unique_filename := stems.headD "" ++ pathSuffix fname
      let fs' := fsWrite st.fs ("uploads/" ++ unique_filename) f.bytes
      let mime_type := pyOrStr f.content_type (pyOrStr (guessType fname) "application/octet-stream")
      let r := Database.create_note "file"
        (if strTruthy content then content else none) (some fname)
        (some ("uploads/" ++ unique_filename)) (some mime_type) tags now st.db
      processFiles guessType content tags now rest stems.tail ⟨r.2, fs'⟩
        (acc ++ [⟨r.1, "file", some fname, "File uploaded successfully"⟩])

/-- `POST /api/notes` (`app.create_note`): classify the request as file
upload, link note, or text note, first match wins; fail with 400 when nothing
usable was supplied. -/
def create_note (guessType : String → Option String) (now : Nat) (stems : List String)
    (req : CreateRequest) (st : AppState) : AppState × Except HttpError CreateResponse :=
  if firstFileNamed req.files then
    match processFiles guessType req.content req.tags now req.files stems st [] with
    | (st', .ok summaries) => (st', .ok ⟨true, summaries, summaries.length⟩)
    | (st', .error e) => (st', .error e)
  else if strTruthy req.link then
    let (note_id, db') := Database.create_note "link" req.link none none none req.tags now st.db
    (⟨db', st.fs⟩, .ok ⟨true, [⟨note_id, "link", none, "Link saved successfully"⟩], 1⟩)
  else if strTruthy req.content then
    let (note_id, db') := Database.create_note "text" req.content none none none req.tags now st.db
    (⟨db', st.fs⟩, .ok ⟨true, [⟨note_id, "text", none, "Note saved successfully"⟩], 1⟩)
  else
    (st, .error ⟨400, "No content, link, or files provided"⟩)

/-- The JSON body returned by `GET /api/notes`. -/
structure ListResponse where
  success : Bool
  notes : List Note
  total : Nat
  limit : Nat
  offset : Nat
deriving DecidableEq, Repr

/-- `GET /api/notes` (`app.get_notes`): search when the `search` parameter is
truthy, plain listing otherwise; `total` is always the unfiltered count. -/
def get_notes (limit offset : Nat) (search : Option String) (s : Store) : ListResponse :=
  let notes :=
    if strTruthy search then Database.search_notes (search.getD "") limit s
    else Database.get_all_notes limit offset s
  ⟨true, notes, Database.get_note_count s, limit, offset⟩

/-- `DELETE /api/notes/{note_id}` (`app.delete_note`): 404 when the id is
absent; otherwise best-effort unlink of the blob (`unlinkOk = false` models
`file_path.unlink()` raising, which is caught and only logged), then delete
the row. -/
def delete_note (note_id : Nat) (unlinkOk : Bool) (st : AppState) :
    AppState × Except HttpError String :=
  match Database.get_note_by_id note_id st.db with
  | none => (st, .error ⟨404, "Note not found"⟩)
  | some note =>
    let fs' :=
      if strTruthy note.file_path then
        let p := note.file_path.getD ""
        if fsExists st.fs p then (if unlinkOk then fsRemove st.fs p else st.fs) else st.fs
      else st.fs
    let (deleted, db') := Database.delete_note note_id st.db
    if deleted then (⟨db', fs'⟩, .ok "Note deleted successfully")
    else (⟨db', fs'⟩, .error ⟨404, "Note not found"⟩)

/-- The `FileResponse` produced by `GET /files/{filename}`. -/
structure FileResp where
  path : String
  media_type : String
  filename : String
deriving DecidableEq, Repr

/-- The traversal guard of `serve_file`:
`".." in filename or "/" in filename or "\\" in filename`. -/
def hasTraversal (filename : String) : Bool :=
  containsSub ".." filename || containsSub "/" filename || containsSub "\\" filename

/-- `GET /files/{filename}` (`app.serve_file`): reject traversal attempts
before touching the disk, 404 when `uploads/<filename>` does not exist,
otherwise serve that path with a guessed MIME type. -/
def serve_file (guessType : String → Option String) (filename : String) (fs : Fs) :
    Except HttpError FileResp :=
  if hasTraversal filename then .error ⟨400, "Invalid filename"⟩
  else
    let file_path := "uploads/" ++ filename
    if !(fsExists fs file_path) then .error ⟨404, "File not found"⟩
    else .ok ⟨file_path, pyOrStr (guessType file_path) "application/octet-stream", filename⟩

end App

/-! ### Database operation traces (for the id-assignment invariant) -/

/-- A database mutation: the two statements `database.py` ever issues against
the `notes` table after `init_db`. -/
inductive DbOp where
  | createOp (note_type : String) (content file_name file_path mime_type tags : Option String)
      (now : Nat)
  | deleteOp (note_id : Nat)
deriving DecidableEq, Repr

/-- Apply one mutation; a create reports the id it returned. -/
def applyOp (s : Store) : DbOp → Store × Option Nat
  | .createOp t c fn fp m tg now =>
    let r := Database.create_note t c fn fp m tg now s
    (r.2, some r.1)
  | .deleteOp i => ((Database.delete_note i s).2, none)

/-- Run a trace of mutations, collecting every id returned by a create, in
order. -/
def runOps (s : Store) : List DbOp → Store × List Nat
  | [] => (s, [])
  | op :: ops =>
    let r := applyOp s op
    let rest := runOps r.1 ops
    (rest.1, r.2.toList ++ rest.2)

/-- The store invariant `AUTOINCREMENT` maintains: every row id is at most
the sequence value. -/
def Wf (s : Store) : Prop := ∀ n ∈ s.notes, n.id ≤ s.seq

/-! ### The specification's own search predicate (for comparison with the
code's `LIKE`-based one): "content, tags, or file_name contains the query as
a substring". -/

/-- Literal substring containment on an optional field (an absent field
contains nothing). -/
def optContainsSub (q : String) : Option String → Bool
  | none => false
  | some s => containsSub q s

/-- The spec's wording of a search match: the query occurs literally as a
substring of `content`, `tags`, or `file_name`. -/
def specSubstrMatch (q : String) (n : Note) : Bool :=
  optContainsSub q n.content || optContainsSub q n.tags || optContainsSub q n.file_name

/-! ### Concrete instances and derived specification statements -/

/-- Three text notes created at successive instants, ids 1, 2, 3. -/
def demoStore3 : Store :=
  (Database.create_note "text" (some "n3") none none none none 3
    (Database.create_note "text" (some "n2") none none none none 2
      (Database.create_note "text" (some "n1") none none none none 1 Database.initDb).2).2).2

/-- A one-note server state used to instantiate the delete theorem. -/
def demoAppState : AppState :=
  ⟨⟨[⟨1, "text", some "x", none, none, none, none, 0, 0⟩], 1⟩, []⟩

/-- A note whose content is the single letter `a`, used to separate the
code's `LIKE` matching from literal substring matching. -/
def demoNoteA : Note := ⟨1, "text", some "a", none, none, none, none, 0, 0⟩

/-- A named upload one byte over the 50 MiB limit. -/
def bigFile : UploadedFile := ⟨some "big.bin", List.replicate (App.maxFileSize + 1) 0, none⟩

/-- The row `App.processFiles` inserts for a named upload `f`, given the
fresh stem and the sequence value at that point. -/
def fileNoteOf (g : String → Option String) (content tags : Option String) (now : Nat)
    (f : UploadedFile) (stem : String) (seq : Nat) : Note :=
  ⟨seq + 1, "file", if strTruthy content then content else none, some (f.filename.getD ""),
    some ("uploads/" ++ (stem ++ App.pathSuffix (f.filename.getD ""))),
    some (App.pyOrStr f.content_type
      (App.pyOrStr (g (f.filename.getD "")) "application/octet-stream")),
    tags, now, now⟩

/-- What `POST /api/notes` does on a request whose named files are all within
the size limit: the four-way, first-match-wins classification of C1. -/
def ClassificationSpec (g : String → Option String) (now : Nat) (stems : List String)
    (req : CreateRequest) (st : AppState) : Prop :=
  if App.firstFileNamed req.files then
    ∃ st' summaries,
      App.create_note g now stems req st = (st', .ok ⟨true, summaries, summaries.length⟩) ∧
      summaries.length = (req.files.filter (fun f => strTruthy f.filename)).length ∧
      (∀ sm ∈ summaries, sm.note_type = "file") ∧
      (∀ n ∈ st'.db.notes, n ∈ st.db.notes ∨ n.note_type = "file")
  else if strTruthy req.link then
    ∃ st', App.create_note g now stems req st =
        (st', .ok ⟨true, [⟨st.db.seq + 1, "link", none, "Link saved successfully"⟩], 1⟩) ∧
      st'.db.notes = st.db.notes ++
        [⟨st.db.seq + 1, "link", req.link, none, none, none, req.tags, now, now⟩]
  else if strTruthy req.content then
    ∃ st', App.create_note g now stems req st =
        (st', .ok ⟨true, [⟨st.db.seq + 1, "text", none, "Note saved successfully"⟩], 1⟩) ∧
      st'.db.notes = st.db.notes ++
        [⟨st.db.seq + 1, "text", req.content, none, none, none, req.tags, now, now⟩]
  else
    App.create_note g now stems req st = (st, .error ⟨400, "No content, link, or files provided"⟩)

/-! ## Theorems -/

/-- C7: the `total` field of `GET /api/notes` is always the unfiltered
`COUNT(*)` of the table — also when a search query is present, where it is
the full table size rather than the number of matches. -/
theorem get_notes_total_unfiltered (limit offset : Nat) (search : Option String) (s : Store) :
    (App.get_notes limit offset search s).total = Database.get_note_count s ∧
    Database.get_note_count s = s.notes.length ∧
    (App.get_notes limit offset search s).total = (App.get_notes limit offset none s).total :=
  ⟨rfl, rfl, rfl⟩

/-- C10: a list request with `search=""` is handled exactly like one with no
`search` parameter (an empty string is falsy in Python), so the non-search
path runs and both `limit` and `offset` apply. -/
theorem empty_search_takes_plain_path (limit offset : Nat) (s : Store) :
    App.get_notes limit offset (some "") s = App.get_notes limit offset none s ∧
    (App.get_notes limit offset (some "") s).notes = Database.get_all_notes limit offset s :=
  ⟨rfl, rfl⟩

/-- C6: without a search query the listing is the table sorted by
`created_at` descending, cut to the window `[offset, offset+limit)`; in
particular over three notes, `limit=1, offset=1` yields exactly the
second-newest note (id 2 of `demoStore3`). -/
theorem list_slices_sorted_by_created_desc :
    (∀ (s : Store) (limit offset : Nat),
        List.Sorted CreatedGe (sortByCreatedDesc s.notes) ∧
        (sortByCreatedDesc s.notes).Perm s.notes ∧
        Database.get_all_notes limit offset s =
          ((sortByCreatedDesc s.notes).drop offset).take limit) ∧
    Database.get_all_notes 1 1 demoStore3 =
      [⟨2, "text", some "n2", none, none, none, none, 2, 2⟩] :=
  ⟨fun s _ _ =>
    ⟨List.sorted_insertionSort CreatedGe s.notes, List.perm_insertionSort CreatedGe s.notes, rfl⟩,
   by decide⟩

/-- Every id a trace assigns exceeds the starting sequence value, and the
assigned ids increase strictly along the trace. -/
theorem runOps_ids_gt_seq (ops : List DbOp) (s : Store) :
    (∀ i ∈ (runOps s ops).2, s.seq < i) ∧ List.Pairwise (· < ·) (runOps s ops).2 := by
  induction ops generalizing s with
  | nil => exact ⟨fun i h => absurd h (List.not_mem_nil i), List.Pairwise.nil⟩
  | cons op ops ih =>
    cases op with
    | createOp t c fn fp m tg now =>
      have hrec := ih ⟨s.notes ++ [⟨s.seq + 1, t, c, fn, fp, m, tg, now, now⟩], s.seq + 1⟩
      simp only [runOps, applyOp, Database.create_note, Option.toList, List.cons_append,
        List.nil_append, List.mem_cons, List.pairwise_cons] at *
      refine ⟨fun i hi => ?_, fun i hi => ?_, hrec.2⟩
      · rcases hi with rfl | hi
        · exact Nat.lt_succ_self _
        · exact Nat.lt_of_succ_lt (hrec.1 i hi)
      · exact hrec.1 i hi
    | deleteOp i =>
      have hrec := ih ⟨s.notes.filter (fun n => !(n.id == i)), s.seq⟩
      simp only [runOps, applyOp, Database.delete_note, Option.toList, List.nil_append] at *
      exact hrec

/-- C9: over any trace of creates and deletes starting from a fresh database,
the ids handed out by create are strictly increasing (each exceeds all
previously assigned ids) and never repeat — in particular a deleted note's id
is never assigned again. -/
theorem note_ids_monotone_never_reused (ops : List DbOp) :
    List.Pairwise (· < ·) (runOps Database.initDb ops).2 ∧
    (runOps Database.initDb ops).2.Nodup :=
  ⟨(runOps_ids_gt_seq ops Database.initDb).2,
   ((runOps_ids_gt_seq ops Database.initDb).2).imp Nat.ne_of_lt⟩

/-- C4: `GET /files/{filename}` rejects any filename containing `..`, `/`, or
`\` with 400 without consulting the filesystem (the outcome is the same for
every filesystem); an accepted filename whose blob is absent gets 404; and a
successful response always serves exactly `uploads/<filename>` with a
separator-free, `..`-free filename, so no path outside the blob directory is
ever read. -/
theorem serve_file_traversal_guard (g : String → Option String) (filename : String) (fs : Fs) :
    (App.hasTraversal filename = true →
      App.serve_file g filename fs = .error ⟨400, "Invalid filename"⟩ ∧
      ∀ fs', App.serve_file g filename fs = App.serve_file g filename fs') ∧
    (App.hasTraversal filename = false →
      fsExists fs ("uploads/" ++ filename) = false →
      App.serve_file g filename fs = .error ⟨404, "File not found"⟩) ∧
    (∀ resp, App.serve_file g filename fs = .ok resp →
      resp.path = "uploads/" ++ filename ∧
      containsSub ".." filename = false ∧ containsSub "/" filename = false ∧
      containsSub "\\" filename = false) := by
  refine ⟨fun h => ⟨by simp [App.serve_file, h], fun fs' => by simp [App.serve_file, h]⟩,
          fun h h' => by simp [App.serve_file, h, h'], fun resp h => ?_⟩
  by_cases ht : App.hasTraversal filename
  · simp [App.serve_file, ht] at h
  · by_cases he : fsExists fs ("uploads/" ++ filename)
    · simp only [App.serve_file, ht, Bool.false_eq_true, if_false, he, Bool.not_true,
        if_neg, Except.ok.injEq] at h
      have hparts : containsSub ".." filename = false ∧ containsSub "/" filename = false ∧
          containsSub "\\" filename = false := by
        have := ht
        simp only [App.hasTraversal, Bool.or_eq_true, not_or, Bool.not_eq_true] at this
        exact ⟨this.1.1, this.1.2, this.2⟩
      exact ⟨by rw [← h], hparts.1, hparts.2.1, hparts.2.2⟩
    · simp [App.serve_file, ht, he] at h

/-- Witness for C4: a traversal attempt gets 400 on an empty filesystem, and
an accepted but missing filename gets 404. -/
theorem serve_file_traversal_guard_witness :
    App.serve_file (fun _ => none) "../../etc/passwd" [] = .error ⟨400, "Invalid filename"⟩ ∧
    App.serve_file (fun _ => none) "missing.bin" [("uploads/present.bin", [1])] =
      .error ⟨404, "File not found"⟩ :=
  ⟨((serve_file_traversal_guard (fun _ => none) "../../etc/passwd" []).1 (by decide)).1,
   (serve_file_traversal_guard (fun _ => none) "missing.bin"
       [("uploads/present.bin", [1])]).2.1 (by decide) (by decide)⟩

/-- C5: `DELETE /api/notes/{id}` fails with 404 exactly when the id is absent
(and then leaves the state untouched); when the note exists the metadata row
is deleted and the operation reports success whether or not the blob unlink
works (`unlinkOk` arbitrary), after which the id resolves to nothing and
appears in no listing. -/
theorem delete_notfound_iff_absent (note_id : Nat) (unlinkOk : Bool) (st : AppState) :
    (Database.get_note_by_id note_id st.db = none →
      App.delete_note note_id unlinkOk st = (st, .error ⟨404, "Note not found"⟩)) ∧
    (∀ note, Database.get_note_by_id note_id st.db = some note →
      ∃ fs', App.delete_note note_id unlinkOk st =
          (⟨⟨st.db.notes.filter (fun n => !(n.id == note_id)), st.db.seq⟩, fs'⟩,
            .ok "Note deleted successfully") ∧
        Database.get_note_by_id note_id (App.delete_note note_id unlinkOk st).1.db = none ∧
        ∀ limit offset n,
          n ∈ Database.get_all_notes limit offset (App.delete_note note_id unlinkOk st).1.db →
            n.id ≠ note_id) := by
  constructor
  · intro h
    simp [App.delete_note, h]
  · intro note h
    have h' : st.db.notes.find? (fun n => n.id == note_id) = some note := h
    have hany : st.db.notes.any (fun n => n.id == note_id) = true :=
      List.any_eq_true.2 ⟨note, List.mem_of_find?_eq_some h',
        @List.find?_some _ (fun n => n.id == note_id) note st.db.notes h'⟩
    have hres : App.delete_note note_id unlinkOk st =
        (⟨⟨st.db.notes.filter (fun n => !(n.id == note_id)), st.db.seq⟩,
          if strTruthy note.file_path then
            let p := note.file_path.getD ""
            if fsExists st.fs p then (if unlinkOk then fsRemove st.fs p else st.fs) else st.fs
          else st.fs⟩, .ok "Note deleted successfully") := by
      simp [App.delete_note, h, Database.delete_note, hany]
    refine ⟨_, hres, ?_, ?_⟩
    · rw [hres]
      exact List.find?_eq_none.2 fun x hx =>
        by simpa using (List.mem_filter.1 hx).2
    · intro limit offset n hn
      rw [hres] at hn
      have hmem : n ∈ (⟨st.db.notes.filter (fun m => !(m.id == note_id)), st.db.seq⟩ : Store).notes := by
        have h1 := List.mem_of_mem_take hn
        have h2 := List.mem_of_mem_drop h1
        exact (List.mem_insertionSort CreatedGe).1 h2
      have := (List.mem_filter.1 hmem).2
      simpa using this

/-- Witness for C5: on the one-note state, deleting id 2 is a 404 that leaves
the state unchanged, and deleting id 1 succeeds even though unlinking is
made to fail. -/
theorem delete_notfound_iff_absent_witness :
    App.delete_note 2 true demoAppState = (demoAppState, .error ⟨404, "Note not found"⟩) ∧
    (App.delete_note 1 false demoAppState).2 = .ok "Note deleted successfully" := by
  constructor
  · exact (delete_notfound_iff_absent 2 true demoAppState).1 (by decide)
  · obtain ⟨fs', heq, -, -⟩ := (delete_notfound_iff_absent 1 false demoAppState).2
      ⟨1, "text", some "x", none, none, none, none, 0, 0⟩ (by decide)
    rw [heq]

/-- C3 counterexample: searching for `A` returns the note whose content is
`a` — SQLite `LIKE` compares ASCII letters case-insensitively — although `A`
occurs in none of the note's fields as a literal substring, so the result is
not "exactly the notes whose content, tags, or file_name contains the query
as a substring". -/
theorem search_result_not_literal_substring :
    demoNoteA ∈ Database.search_notes "A" 100 ⟨[demoNoteA], 1⟩ ∧
    specSubstrMatch "A" demoNoteA = false := by decide

/-- C3 (amended): with a non-empty query, the search result is sound for the
code's `LIKE` matching (every returned note is a stored note matching the
query), complete whenever the limit is not exceeded, sorted by `created_at`
descending with the limit applied, and the `offset` parameter has no effect
whatsoever on the returned notes. -/
theorem search_like_characterization (q : String) (limit : Nat) (s : Store)
    (offset1 offset2 : Nat) (hq : q ≠ "") :
    (∀ n, n ∈ Database.search_notes q limit s →
      n ∈ s.notes ∧ Database.noteMatches q n = true) ∧
    List.Sorted CreatedGe (Database.search_notes q limit s) ∧
    (Database.search_notes q limit s).length ≤ limit ∧
    ((s.notes.filter (Database.noteMatches q)).length ≤ limit →
      ∀ n, n ∈ Database.search_notes q limit s ↔
        n ∈ s.notes ∧ Database.noteMatches q n = true) ∧
    (App.get_notes limit offset1 (some q) s).notes =
      (App.get_notes limit offset2 (some q) s).notes := by
  have ht : strTruthy (some q) = true := by simp [strTruthy, hq]
  refine ⟨fun n hn => ?_, ?_, ?_, fun hlen n => ?_, ?_⟩
  · have h1 := List.mem_of_mem_take hn
    have h2 := (List.mem_insertionSort CreatedGe).1 h1
    exact And.imp_right (fun h => h) (List.mem_filter.1 h2)
  · exact List.Pairwise.sublist (List.take_sublist _ _)
      (List.sorted_insertionSort CreatedGe (s.notes.filter (Database.noteMatches q)))
  · exact List.length_take_le _ _
  · have hfull : Database.search_notes q limit s =
        sortByCreatedDesc (s.notes.filter (Database.noteMatches q)) := by
      unfold Database.search_notes
      exact List.take_of_length_le (by
        rw [sortByCreatedDesc, List.length_insertionSort]; exact hlen)
    rw [hfull, sortByCreatedDesc, List.mem_insertionSort, List.mem_filter]
  · simp [App.get_notes, ht]

/-- Witness for C3 (amended): on the one-note store, membership is exactly
`LIKE` matching and offsets 0 and 5 give the same search result. -/
theorem search_like_characterization_witness :
    (demoNoteA ∈ Database.search_notes "A" 100 ⟨[demoNoteA], 1⟩ ↔
      demoNoteA ∈ (⟨[demoNoteA], 1⟩ : Store).notes ∧
        Database.noteMatches "A" demoNoteA = true) ∧
    (App.get_notes 100 0 (some "A") ⟨[demoNoteA], 1⟩).notes =
      (App.get_notes 100 5 (some "A") ⟨[demoNoteA], 1⟩).notes := by
  have h := search_like_characterization "A" 100 ⟨[demoNoteA], 1⟩ 0 5 (by decide)
  exact ⟨h.2.2.2.1 (by decide) demoNoteA, h.2.2.2.2⟩

/-- C8: creating a text note with content `hello` (no link, no files) on any
well-formed state succeeds with a single `text` summary, and fetching the
returned id yields a note with `note_type = "text"` and `content = "hello"`. -/
theorem create_then_get_text (g : String → Option String) (now : Nat) (stems : List String)
    (tags : Option String) (st : AppState) (hwf : Wf st.db) :
    ∃ st', App.create_note g now stems ⟨some "hello", none, tags, []⟩ st =
        (st', .ok ⟨true, [⟨st.db.seq + 1, "text", none, "Note saved successfully"⟩], 1⟩) ∧
      ∃ n, Database.get_note_by_id (st.db.seq + 1) st'.db = some n ∧
        n.note_type = "text" ∧ n.content = some "hello" := by
  refine ⟨⟨⟨st.db.notes ++ [⟨st.db.seq + 1, "text", some "hello", none, none, none, tags,
      now, now⟩], st.db.seq + 1⟩, st.fs⟩, ?_, ?_⟩
  · simp [App.create_note, App.firstFileNamed, strTruthy, Database.create_note]
  · refine ⟨⟨st.db.seq + 1, "text", some "hello", none, none, none, tags, now, now⟩,
      ?_, rfl, rfl⟩
    show List.find? (fun n : Note => n.id == st.db.seq + 1)
        (st.db.notes ++
          [⟨st.db.seq + 1, "text", some "hello", none, none, none, tags, now, now⟩]) =
      some ⟨st.db.seq + 1, "text", some "hello", none, none, none, tags, now, now⟩
    rw [List.find?_append]
    have h1 : st.db.notes.find? (fun n => n.id == st.db.seq + 1) = none :=
      List.find?_eq_none.2 fun x hx => by
        have hne : x.id ≠ st.db.seq + 1 := Nat.ne_of_lt (Nat.lt_succ_of_le (hwf x hx))
        simp [hne]
    rw [h1]
    simp [List.find?]

/-- Witness for C8: from the empty state, the text note gets id 1 and reads
back with type `text` and content `hello`. -/
theorem create_then_get_text_witness :
    ∃ st', App.create_note (fun _ => none) 7 [] ⟨some "hello", none, none, []⟩
        ⟨Database.initDb, []⟩ =
        (st', .ok ⟨true, [⟨1, "text", none, "Note saved successfully"⟩], 1⟩) ∧
      ∃ n, Database.get_note_by_id 1 st'.db = some n ∧
        n.note_type = "text" ∧ n.content = some "hello" :=
  create_then_get_text (fun _ => none) 7 [] none ⟨Database.initDb, []⟩
    (fun n h => absurd h (List.not_mem_nil n))

/-- Unfolding `processFiles` over an unnamed file: it is skipped entirely
(`continue`), without a size check. -/
theorem processFiles_cons_unnamed (g : String → Option String) (content tags : Option String)
    (now : Nat) (f : UploadedFile) (rest : List UploadedFile) (stems : List String)
    (st : AppState) (acc : List CreatedSummary) (hname : strTruthy f.filename = false) :
    App.processFiles g content tags now (f :: rest) stems st acc =
      App.processFiles g content tags now rest stems st acc := by
  simp [App.processFiles, hname]

/-- Unfolding `processFiles` over a named oversized file: the whole request
aborts with 413 and the state at that point is returned unchanged. -/
theorem processFiles_cons_oversized (g : String → Option String) (content tags : Option String)
    (now : Nat) (f : UploadedFile) (rest : List UploadedFile) (stems : List String)
    (st : AppState) (acc : List CreatedSummary) (hname : strTruthy f.filename = true)
    (hgt : f.bytes.length > App.maxFileSize) :
    App.processFiles g content tags now (f :: rest) stems st acc =
      (st, .error ⟨413, "File " ++ f.filename.getD "" ++ " is too large (max 50MB)"⟩) := by
  simp [App.processFiles, hname, hgt]

/-- Unfolding `processFiles` over a named file within the limit: the blob is
written, the row inserted, and processing continues. -/
theorem processFiles_cons_named (g : String → Option String) (content tags : Option String)
    (now : Nat) (f : UploadedFile) (rest : List UploadedFile) (stems : List String)
    (st : AppState) (acc : List CreatedSummary) (hname : strTruthy f.filename = true)
    (hle : f.bytes.length ≤ App.maxFileSize) :
    App.processFiles g content tags now (f :: rest) stems st acc =
      App.processFiles g content tags now rest stems.tail
        ⟨⟨st.db.notes ++ [fileNoteOf g content tags now f (stems.headD "") st.db.seq],
            st.db.seq + 1⟩,
          fsWrite st.fs ("uploads/" ++ (stems.headD "" ++ App.pathSuffix (f.filename.getD "")))
            f.bytes⟩
        (acc ++
          [⟨st.db.seq + 1, "file", some (f.filename.getD ""), "File uploaded successfully"⟩]) := by
  simp [App.processFiles, hname, Nat.not_lt.2 hle, Database.create_note, fileNoteOf]

/-- Processing a batch whose named files are all within the size limit
succeeds: one `file` summary per named file is appended to the accumulator,
and every row added to the table is a `file` note. -/
theorem processFiles_ok (g : String → Option String) (content tags : Option String) (now : Nat)
    (files : List UploadedFile) :
    ∀ (stems : List String) (st : AppState) (acc : List CreatedSummary),
      (∀ f ∈ files, strTruthy f.filename = true → f.bytes.length ≤ App.maxFileSize) →
      ∃ st' news,
        App.processFiles g content tags now files stems st acc = (st', .ok (acc ++ news)) ∧
        news.length = (files.filter (fun f => strTruthy f.filename)).length ∧
        (∀ sm ∈ news, sm.note_type = "file") ∧
        (∀ n ∈ st'.db.notes, n ∈ st.db.notes ∨ n.note_type = "file") := by
  induction files with
  | nil =>
    intro stems st acc _
    exact ⟨st, [], by simp [App.processFiles], rfl,
      fun sm h => absurd h (List.not_mem_nil sm), fun n hn => Or.inl hn⟩
  | cons f rest ih =>
    intro stems st acc hsz
    by_cases hname : strTruthy f.filename = true
    · have hle : f.bytes.length ≤ App.maxFileSize := hsz f (List.mem_cons_self f rest) hname
      obtain ⟨st', news, heq, hlen, hfile, hdb⟩ := ih stems.tail
        ⟨⟨st.db.notes ++ [fileNoteOf g content tags now f (stems.headD "") st.db.seq],
            st.db.seq + 1⟩,
          fsWrite st.fs ("uploads/" ++ (stems.headD "" ++ App.pathSuffix (f.filename.getD "")))
            f.bytes⟩
        (acc ++
          [⟨st.db.seq + 1, "file", some (f.filename.getD ""), "File uploaded successfully"⟩])
        (fun p hp hp' => hsz p (List.mem_cons_of_mem f hp) hp')
      refine ⟨st',
        ⟨st.db.seq + 1, "file", some (f.filename.getD ""), "File uploaded successfully"⟩ :: news,
        ?_, ?_, ?_, ?_⟩
      · rw [processFiles_cons_named g content tags now f rest stems st acc hname hle, heq]
        simp
      · simp [List.filter_cons, hname, hlen]
      · intro sm hsm
        rcases List.mem_cons.1 hsm with rfl | hsm
        · rfl
        · exact hfile sm hsm
      · intro n hn
        rcases hdb n hn with hmem | htype
        · rcases List.mem_append.1 hmem with h | h
          · exact Or.inl h
          · rcases List.mem_singleton.1 h with rfl
            exact Or.inr rfl
        · exact Or.inr htype
    · have hname' : strTruthy f.filename = false := by
        cases h : strTruthy f.filename with
        | false => rfl
        | true => exact absurd h hname
      obtain ⟨st', news, heq, hlen, hfile, hdb⟩ := ih stems st acc
        (fun p hp hp' => hsz p (List.mem_cons_of_mem f hp) hp')
      exact ⟨st', news,
        by rw [processFiles_cons_unnamed g content tags now f rest stems st acc hname', heq],
        by simp [List.filter_cons, hname', hlen], hfile, hdb⟩

/-- Processing stops at the first named oversized file: the final state is
exactly the state after the files before it, and the error is that file's
413. -/
theorem processFiles_stops_at_oversized (g : String → Option String)
    (content tags : Option String) (now : Nat) (pre : List UploadedFile) (f : UploadedFile)
    (rest : List UploadedFile) :
    ∀ (stems : List String) (st : AppState) (acc : List CreatedSummary),
      (∀ p ∈ pre, strTruthy p.filename = true → p.bytes.length ≤ App.maxFileSize) →
      strTruthy f.filename = true → f.bytes.length > App.maxFileSize →
      App.processFiles g content tags now (pre ++ f :: rest) stems st acc =
        ((App.processFiles g content tags now pre stems st acc).1,
          .error ⟨413, "File " ++ f.filename.getD "" ++ " is too large (max 50MB)"⟩) := by
  induction pre with
  | nil =>
    intro stems st acc _ hname hgt
    rw [List.nil_append,
      processFiles_cons_oversized g content tags now f rest stems st acc hname hgt]
    rfl
  | cons p pre' ih =>
    intro stems st acc hsz hname hgt
    by_cases hp : strTruthy p.filename = true
    · have hle : p.bytes.length ≤ App.maxFileSize := hsz p (List.mem_cons_self p pre') hp
      rw [List.cons_append,
        processFiles_cons_named g content tags now p (pre' ++ f :: rest) stems st acc hp hle,
        ih _ _ _ (fun q hq hq' => hsz q (List.mem_cons_of_mem p hq) hq') hname hgt,
        processFiles_cons_named g content tags now p pre' stems st acc hp hle]
    · have hp' : strTruthy p.filename = false := by
        cases h : strTruthy p.filename with
        | false => rfl
        | true => exact absurd h hp
      rw [List.cons_append,
        processFiles_cons_unnamed g content tags now p (pre' ++ f :: rest) stems st acc hp',
        ih _ _ _ (fun q hq hq' => hsz q (List.mem_cons_of_mem p hq) hq') hname hgt,
        processFiles_cons_unnamed g content tags now p pre' stems st acc hp']

/-- On the file branch, a `processFiles` error is the response: `create_note`
propagates the 413 together with the state `processFiles` stopped in. -/
theorem create_note_file_error (g : String → Option String) (now : Nat) (stems : List String)
    (req : CreateRequest) (st st' : AppState) (e : HttpError)
    (hf : App.firstFileNamed req.files = true)
    (h : App.processFiles g req.content req.tags now req.files stems st [] = (st', .error e)) :
    App.create_note g now stems req st = (st', .error e) := by
  unfold App.create_note
  rw [hf, if_pos rfl, h]

/-- C1 counterexample: a request whose only file is named (`big.bin`, one
byte over the limit) is classified as a file upload, yet that named file
yields no note at all: the request aborts with 413 and the state comes back
unchanged — refuting "every named file yields a note with note_type=file" as
an unconditional statement. -/
theorem named_file_yields_no_note :
    App.firstFileNamed [bigFile] = true ∧
    App.create_note (fun _ => none) 0 ["u"] ⟨none, none, none, [bigFile]⟩
        ⟨Database.initDb, []⟩ =
      (⟨Database.initDb, []⟩, .error ⟨413, "File big.bin is too large (max 50MB)"⟩) := by
  have hname : strTruthy bigFile.filename = true := by decide
  have hgt : bigFile.bytes.length > App.maxFileSize := by simp [bigFile]
  have h := processFiles_cons_oversized (fun _ => none) none none 0 bigFile [] ["u"]
    ⟨Database.initDb, []⟩ [] hname hgt
  have hstr : ("File " ++ bigFile.filename.getD "" ++ " is too large (max 50MB)") =
      "File big.bin is too large (max 50MB)" := by decide
  rw [hstr] at h
  exact ⟨by decide, create_note_file_error (fun _ => none) 0 ["u"]
    ⟨none, none, none, [bigFile]⟩ ⟨Database.initDb, []⟩ ⟨Database.initDb, []⟩ _ (by decide) h⟩

/-- C1 (amended): provided every named file is within the 50 MiB limit, the
request is classified first-match-wins — files (each named file yielding a
`file` note), else link, else text, else 400 with the state unchanged. -/
theorem create_classification (g : String → Option String) (now : Nat) (stems : List String)
    (req : CreateRequest) (st : AppState)
    (hsz : ∀ f ∈ req.files, strTruthy f.filename = true → f.bytes.length ≤ App.maxFileSize) :
    ClassificationSpec g now stems req st := by
  unfold ClassificationSpec
  by_cases hf : App.firstFileNamed req.files = true
  · rw [if_pos hf]
    obtain ⟨st', news, heq, hlen, hfile, hdb⟩ :=
      processFiles_ok g req.content req.tags now req.files stems st [] hsz
    refine ⟨st', news, ?_, hlen, hfile, hdb⟩
    simp [App.create_note, hf, heq]
  · have hf' : App.firstFileNamed req.files = false := Bool.eq_false_iff.2 hf
    rw [if_neg (by simp [hf'])]
    by_cases hl : strTruthy req.link = true
    · rw [if_pos hl]
      exact ⟨⟨⟨st.db.notes ++
          [⟨st.db.seq + 1, "link", req.link, none, none, none, req.tags, now, now⟩],
          st.db.seq + 1⟩, st.fs⟩,
        by simp [App.create_note, hf', hl, Database.create_note], rfl⟩
    · have hl' : strTruthy req.link = false := Bool.eq_false_iff.2 hl
      rw [if_neg (by simp [hl'])]
      by_cases hc : strTruthy req.content = true
      · rw [if_pos hc]
        exact ⟨⟨⟨st.db.notes ++
            [⟨st.db.seq + 1, "text", req.content, none, none, none, req.tags, now, now⟩],
            st.db.seq + 1⟩, st.fs⟩,
          by simp [App.create_note, hf', hl', hc, Database.create_note], rfl⟩
      · have hc' : strTruthy req.content = false := Bool.eq_false_iff.2 hc
        rw [if_neg (by simp [hc'])]
        simp [App.create_note, hf', hl', hc']

/-- Witness for C1 (amended): a request with one small named file takes the
file branch of the classification. -/
theorem create_classification_witness :
    ClassificationSpec (fun _ => none) 0 ["u"]
      ⟨none, none, none, [⟨some "a.txt", [104, 105], none⟩]⟩ ⟨Database.initDb, []⟩ :=
  create_classification (fun _ => none) 0 ["u"]
    ⟨none, none, none, [⟨some "a.txt", [104, 105], none⟩]⟩ ⟨Database.initDb, []⟩ (by decide)

/-- C2: on a file-upload request, processing aborts with 413 at the first
named oversized file (> 50 MiB), leaving exactly the state produced by the
files before it — so the oversized file contributes neither a row nor a
blob; and when every named file is within the limit the request is not
rejected by the size check. -/
theorem oversized_upload_rejected (g : String → Option String) (now : Nat)
    (stems : List String) (st : AppState) (content link tags : Option String) :
    (∀ (pre : List UploadedFile) (f : UploadedFile) (rest : List UploadedFile),
      App.firstFileNamed (pre ++ f :: rest) = true →
      (∀ p ∈ pre, strTruthy p.filename = true → p.bytes.length ≤ App.maxFileSize) →
      strTruthy f.filename = true → f.bytes.length > App.maxFileSize →
      App.create_note g now stems ⟨content, link, tags, pre ++ f :: rest⟩ st =
        ((App.processFiles g content tags now pre stems st []).1,
          .error ⟨413, "File " ++ f.filename.getD "" ++ " is too large (max 50MB)"⟩)) ∧
    (∀ files : List UploadedFile, App.firstFileNamed files = true →
      (∀ p ∈ files, strTruthy p.filename = true → p.bytes.length ≤ App.maxFileSize) →
      ∃ st' resp, App.create_note g now stems ⟨content, link, tags, files⟩ st =
        (st', .ok resp)) := by
  constructor
  · intro pre f rest hf hpre hname hgt
    have h := processFiles_stops_at_oversized g content tags now pre f rest stems st []
      hpre hname hgt
    simp [App.create_note, hf, h]
  · intro files hf hsz
    obtain ⟨st', news, heq, -, -, -⟩ := processFiles_ok g content tags now files stems st [] hsz
    exact ⟨st', ⟨true, news, news.length⟩, by simp [App.create_note, hf, heq]⟩

/-- Witness for C2: the oversized `big.bin` upload is rejected with 413
leaving the empty state untouched, while a two-byte upload goes through. -/
theorem oversized_upload_rejected_witness :
    App.create_note (fun _ => none) 0 ["u"] ⟨none, none, none, [bigFile]⟩
        ⟨Database.initDb, []⟩ =
      (⟨Database.initDb, []⟩, .error ⟨413, "File big.bin is too large (max 50MB)"⟩) ∧
    ∃ st' resp, App.create_note (fun _ => none) 0 ["u"]
        ⟨none, none, none, [⟨some "a.txt", [104, 105], none⟩]⟩ ⟨Database.initDb, []⟩ =
      (st', .ok resp) := by
  have h := oversized_upload_rejected (fun _ => none) 0 ["u"] ⟨Database.initDb, []⟩
    none none none
  constructor
  · have h1 := h.1 [] bigFile [] (by decide) (fun p hp => absurd hp (List.not_mem_nil p))
      (by decide) (by simp [bigFile])
    have hstr : ("File " ++ bigFile.filename.getD "" ++ " is too large (max 50MB)") =
        "File big.bin is too large (max 50MB)" := by decide
    have hps : (App.processFiles (fun _ => none) none none 0 [] ["u"]
        ⟨Database.initDb, []⟩ []).1 = (⟨Database.initDb, []⟩ : AppState) := rfl
    rw [hstr, hps] at h1
    exact h1
  · exact h.2 [⟨some "a.txt", [104, 105], none⟩] (by decide) (by decide)

end NoteTaker
